import Mathlib

/-!
Verification of the cross-chain order processor: a shallow embedding of the
on-chain ledger (contracts/OrderProcessor.sol) and of the off-chain
executor/listener (bun-executor-listener/executor.ts and the hub listener),
with theorems settling the specified properties.

Conventions: Solidity bytes32, address and uint values are modelled as Nat;
the topics byte string is modelled as its list of 32-byte words; abi-encoded
unindexed data is modelled as its list of words.  A reverting call is an
Except.error result and leaves the caller-visible state unchanged.
-/

/-- Order states as declared in OrderProcessor.sol (enum OrderState). -/
inductive OrderState where
  | NONEXISTENT
  | OPEN
  | COMPLETED
deriving DecidableEq, Repr

/-- Struct OrderInfo from OrderProcessor.sol. -/
structure OrderInfo where
  state : OrderState
  sourceAccount : Nat
  targetAccount : Nat
  amount : Nat
  rewardAsset : Nat
  confirmationId : Nat
  timestamp : Nat
  nonce : Nat
  networkId : Nat
deriving DecidableEq, Repr

/-- The zero-initialized mapping slot a Solidity mapping returns for an
absent key: state NONEXISTENT, all other fields zero. -/
def OrderInfo.zero : OrderInfo :=
  { state := OrderState.NONEXISTENT, sourceAccount := 0, targetAccount := 0,
    amount := 0, rewardAsset := 0, confirmationId := 0, timestamp := 0,
    nonce := 0, networkId := 0 }

/-- Contract storage of OrderProcessor: the orders mapping and the
authorizedContracts double mapping. -/
structure ContractState where
  orders : Nat → OrderInfo
  authorizedContracts : Nat → Nat → Bool

/-- The tuple returned by polymerProver.validateEvent(proof): source chain
id, emitting contract, the concatenated topics (as 32-byte words), and the
abi-encoded unindexed data (as words). -/
structure ProverOutput where
  chainId : Nat
  emittingContract : Nat
  topics : List Nat
  data : List Nat

/-- Models keccak256 of the OrderCreated event signature string; only its
distinctness from the Confirmation selector matters. -/
def orderCreatedSig : Nat := 0xA1

/-- Models keccak256 of the Confirmation event signature string. -/
def confirmationSig : Nat := 0xB2

/-- The nine-word tuple abi.decoded by openOrder:
(uint32 asset, bytes32 targetAccount, uint256 amount, address rewardAsset,
uint256 insurance, uint256 maxReward, uint32 nonce, address sourceAccount,
uint256 orderTimestamp). -/
structure OpenPayload where
  asset : Nat
  targetAccount : Nat
  amount : Nat
  rewardAsset : Nat
  insurance : Nat
  maxReward : Nat
  nonce : Nat
  sourceAccount : Nat
  orderTimestamp : Nat
deriving DecidableEq, Repr

/-- Word-level model of abi.decode for the openOrder payload: exactly nine
words, with the Solidity 0.8 clean-padding checks on the uint32 and address
fields; any violation reverts (None). -/
def decodeOpenPayload (data : List Nat) : Option OpenPayload :=
  match data with
  | [a0, a1, a2, a3, a4, a5, a6, a7, a8] =>
    if a0 < 2 ^ 32 ∧ a3 < 2 ^ 160 ∧ a6 < 2 ^ 32 ∧ a7 < 2 ^ 160 then
      some { asset := a0, targetAccount := a1, amount := a2, rewardAsset := a3,
             insurance := a4, maxReward := a5, nonce := a6, sourceAccount := a7,
             orderTimestamp := a8 }
    else none
  | _ => none

/-- The four-word tuple abi.decoded by orderCompleted:
(uint256 amount, address asset, bytes32 confirmationId, uint256 timestamp). -/
structure CompletePayload where
  amount : Nat
  asset : Nat
  confirmationId : Nat
  timestamp : Nat
deriving DecidableEq, Repr

/-- Word-level model of abi.decode for the orderCompleted payload. -/
def decodeCompletePayload (data : List Nat) : Option CompletePayload :=
  match data with
  | [a0, a1, a2, a3] =>
    if a1 < 2 ^ 160 then
      some { amount := a0, asset := a1, confirmationId := a2, timestamp := a3 }
    else none
  | _ => none

/-- Event OrderOpened emitted by openOrder. -/
structure OrderOpenedEvent where
  id : Nat
  destination : Nat
  asset : Nat
  targetAccount : Nat
  amount : Nat
  rewardAsset : Nat
  insurance : Nat
  maxReward : Nat
  nonce : Nat
  sourceAccount : Nat
  orderTimestamp : Nat
deriving DecidableEq, Repr

/-- Event OrderCompleted emitted by orderCompleted. -/
structure OrderCompletedEvent where
  id : Nat
  target : Nat
  confirmationId : Nat
  amount : Nat
  asset : Nat
  timestamp : Nat
deriving DecidableEq, Repr

/-- Event ReclaimReady emitted by orderCompleted. -/
structure ReclaimReadyEvent where
  id : Nat
  sourceAccount : Nat
  rewardAsset : Nat
  timestamp : Nat
deriving DecidableEq, Repr

/-- Function openOrder of OrderProcessor.sol, check for check in source
order: topics length (at least three words), event selector, order state
NONEXISTENT, abi.decode of the unindexed data, then the single store of the
new OrderInfo and the OrderOpened emission.  A failed require is a revert,
returned as Except.error. -/
def openOrder (s : ContractState) (po : ProverOutput) :
    Except String (ContractState × OrderOpenedEvent) :=
  match po.topics with
  | t0 :: t1 :: t2 :: _ =>
    if t0 = orderCreatedSig then
      if (s.orders t1).state = OrderState.NONEXISTENT then
        match decodeOpenPayload po.data with
        | some p =>
          let info : OrderInfo :=
            { state := OrderState.OPEN
              sourceAccount := p.sourceAccount
              targetAccount := p.targetAccount
              amount := p.amount
              rewardAsset := p.rewardAsset
              confirmationId := 0
              timestamp := p.orderTimestamp
              nonce := p.nonce
              networkId := t2 }
          Except.ok
            ({ s with orders := fun k => if k = t1 then info else s.orders k },
             { id := t1, destination := t2, asset := p.asset,
               targetAccount := p.targetAccount, amount := p.amount,
               rewardAsset := p.rewardAsset, insurance := p.insurance,
               maxReward := p.maxReward, nonce := p.nonce,
               sourceAccount := p.sourceAccount,
               orderTimestamp := p.orderTimestamp })
        | none => Except.error "abi decode failed"
      else Except.error "Order already exists"
    else Except.error "Invalid event signature"
  | _ => Except.error "Invalid topics length"

/-- Function orderCompleted of OrderProcessor.sol, check for check in
source order: topics length (at least four words), event selector, order
state OPEN, abi.decode, amount consistency, then the in-place update of
state, confirmationId and timestamp and the two emissions. -/
def orderCompleted (s : ContractState) (po : ProverOutput) :
    Except String (ContractState × OrderCompletedEvent × ReclaimReadyEvent) :=
  match po.topics with
  | t0 :: t1 :: t2 :: _ :: _ =>
    if t0 = confirmationSig then
      if (s.orders t1).state = OrderState.OPEN then
        match decodeCompletePayload po.data with
        | some p =>
          if (s.orders t1).amount = p.amount then
            let old := s.orders t1
            let updated : OrderInfo :=
              { old with
                  state := OrderState.COMPLETED
                  confirmationId := p.confirmationId
                  timestamp := p.timestamp }
            Except.ok
              ({ s with orders := fun k => if k = t1 then updated else s.orders k },
               { id := t1, target := t2 % 2 ^ 160,
                 confirmationId := p.confirmationId, amount := p.amount,
                 asset := p.asset, timestamp := p.timestamp },
               { id := t1, sourceAccount := old.sourceAccount,
                 rewardAsset := old.rewardAsset, timestamp := p.timestamp })
          else Except.error "Amount mismatch between order and confirmation"
        | none => Except.error "abi decode failed"
      else Except.error "Order not in open state"
    else Except.error "Invalid event signature"
  | _ => Except.error "Invalid topics length"

/-- Function authorizeSourceContract of OrderProcessor.sol: writes one cell
of the authorizedContracts mapping. -/
def authorizeSourceContract (s : ContractState) (chainId contractAddress : Nat)
    (authorized : Bool) : ContractState :=
  { s with authorizedContracts := fun c a =>
      if c = chainId ∧ a = contractAddress then authorized
      else s.authorizedContracts c a }

/-- EVM semantics of a transaction calling openOrder: a revert rolls the
state back, a success commits the returned state. -/
def applyOpen (s : ContractState) (po : ProverOutput) : ContractState :=
  match openOrder s po with
  | Except.ok r => r.1
  | Except.error _ => s

/-- EVM semantics of a transaction calling orderCompleted. -/
def applyComplete (s : ContractState) (po : ProverOutput) : ContractState :=
  match orderCompleted s po with
  | Except.ok r => r.1
  | Except.error _ => s

/-- One committed transaction against the contract: any call to one of its
three state-changing entry points, with any arguments. -/
inductive ContractStep : ContractState → ContractState → Prop where
  | openTx (s : ContractState) (po : ProverOutput) : ContractStep s (applyOpen s po)
  | completeTx (s : ContractState) (po : ProverOutput) : ContractStep s (applyComplete s po)
  | authorizeTx (s : ContractState) (c a : Nat) (b : Bool) :
      ContractStep s (authorizeSourceContract s c a b)

theorem applyOpen_of_error {s : ContractState} {po : ProverOutput} {e : String}
    (h : openOrder s po = Except.error e) : applyOpen s po = s := by
  simp [applyOpen, h]

theorem applyComplete_of_error {s : ContractState} {po : ProverOutput} {e : String}
    (h : orderCompleted s po = Except.error e) : applyComplete s po = s := by
  simp [applyComplete, h]

theorem openOrder_rejects_existing (s : ContractState) (po : ProverOutput) (id : Nat)
    (hid : po.topics.get? 1 = some id)
    (hstate : (s.orders id).state ≠ OrderState.NONEXISTENT) :
    ∃ e, openOrder s po = Except.error e := by
  obtain ⟨c, ec, tp, dt⟩ := po
  match tp, hid with
  | t0 :: t1 :: tl, hid =>
    simp only [List.get?] at hid
    obtain rfl : t1 = id := by injection hid
    cases tl with
    | nil => exact ⟨_, rfl⟩
    | cons t2 tl2 =>
      by_cases hsig : t0 = orderCreatedSig
      · refine ⟨"Order already exists", ?_⟩
        simp [openOrder, hsig, hstate]
      · refine ⟨"Invalid event signature", ?_⟩
        simp [openOrder, hsig]

theorem orderCompleted_rejects_notOpen (s : ContractState) (po : ProverOutput) (id : Nat)
    (hid : po.topics.get? 1 = some id)
    (hstate : (s.orders id).state ≠ OrderState.OPEN) :
    ∃ e, orderCompleted s po = Except.error e := by
  obtain ⟨c, ec, tp, dt⟩ := po
  match tp, hid with
  | t0 :: t1 :: tl, hid =>
    simp only [List.get?] at hid
    obtain rfl : t1 = id := by injection hid
    cases tl with
    | nil => exact ⟨_, rfl⟩
    | cons t2 tl2 =>
      cases tl2 with
      | nil => exact ⟨_, rfl⟩
      | cons t3 tl3 =>
        by_cases hsig : t0 = confirmationSig
        · refine ⟨"Order not in open state", ?_⟩
          simp [orderCompleted, hsig, hstate]
        · refine ⟨"Invalid event signature", ?_⟩
          simp [orderCompleted, hsig]

theorem orderCompleted_rejects_mismatch (s : ContractState) (po : ProverOutput)
    (oid a : Nat) (hid : po.topics.get? 1 = some oid)
    (hamt : po.data.get? 0 = some a) (hne : a ≠ (s.orders oid).amount) :
    ∃ e, orderCompleted s po = Except.error e := by
  obtain ⟨c, ec, tp, dt⟩ := po
  rcases tp with _ | ⟨t0, _ | ⟨t1, tl⟩⟩
  · simp at hid
  · simp at hid
  · have ht1 : t1 = oid := by simpa using hid
    subst ht1
    rcases tl with _ | ⟨t2, _ | ⟨t3, tl3⟩⟩
    · exact ⟨_, rfl⟩
    · exact ⟨_, rfl⟩
    · by_cases hsig : t0 = confirmationSig
      · by_cases hst : (s.orders t1).state = OrderState.OPEN
        · rcases dt with _ | ⟨a0, dtl⟩
          · simp at hamt
          · have ha0 : a0 = a := by simpa using hamt
            subst ha0
            rcases dtl with _ | ⟨a1, _ | ⟨a2, _ | ⟨a3, _ | ⟨a4, dtl4⟩⟩⟩⟩
            · refine ⟨"abi decode failed", ?_⟩
              simp [orderCompleted, hsig, hst, decodeCompletePayload]
            · refine ⟨"abi decode failed", ?_⟩
              simp [orderCompleted, hsig, hst, decodeCompletePayload]
            · refine ⟨"abi decode failed", ?_⟩
              simp [orderCompleted, hsig, hst, decodeCompletePayload]
            · by_cases hpad : a1 < 2 ^ 160
              · refine ⟨"Amount mismatch between order and confirmation", ?_⟩
                have hne2 : ¬ (s.orders t1).amount = a0 := fun h => hne h.symm
                simp only [orderCompleted, decodeCompletePayload, hsig, hst,
                  eq_self_iff_true, if_true, if_pos hpad, hne2, if_false]
              · refine ⟨"abi decode failed", ?_⟩
                simp only [orderCompleted, decodeCompletePayload, hsig, hst,
                  eq_self_iff_true, if_true, if_neg hpad]
            · refine ⟨"abi decode failed", ?_⟩
              simp [orderCompleted, hsig, hst, decodeCompletePayload]
        · refine ⟨"Order not in open state", ?_⟩
          simp [orderCompleted, hsig, hst]
      · refine ⟨"Invalid event signature", ?_⟩
        simp [orderCompleted, hsig]

/-- Claim C1: for every order id, openOrder rejects when the state of the
order decoded from the proof is already OPEN or COMPLETED; orderCompleted
rejects when the state is not OPEN; orderCompleted rejects when the decoded
confirmation amount differs from the stored amount; and in every such
reject case the committed state is unchanged (no partial write). -/
theorem claim_C1 (s : ContractState) (po : ProverOutput) (id : Nat)
    (hid : po.topics.get? 1 = some id) :
    (((s.orders id).state = OrderState.OPEN ∨ (s.orders id).state = OrderState.COMPLETED) →
       (∃ e, openOrder s po = Except.error e) ∧ applyOpen s po = s)
    ∧ ((s.orders id).state ≠ OrderState.OPEN →
       (∃ e, orderCompleted s po = Except.error e) ∧ applyComplete s po = s)
    ∧ (∀ a, po.data.get? 0 = some a → a ≠ (s.orders id).amount →
       (∃ e, orderCompleted s po = Except.error e) ∧ applyComplete s po = s) := by
  refine ⟨?_, ?_, ?_⟩
  · intro hstate
    have hne : (s.orders id).state ≠ OrderState.NONEXISTENT := by
      rcases hstate with h | h <;> simp [h]
    obtain ⟨e, he⟩ := openOrder_rejects_existing s po id hid hne
    exact ⟨⟨e, he⟩, applyOpen_of_error he⟩
  · intro hstate
    obtain ⟨e, he⟩ := orderCompleted_rejects_notOpen s po id hid hstate
    exact ⟨⟨e, he⟩, applyComplete_of_error he⟩
  · intro a hamt hne
    obtain ⟨e, he⟩ := orderCompleted_rejects_mismatch s po id a hid hamt hne
    exact ⟨⟨e, he⟩, applyComplete_of_error he⟩

/-- A state with order 5 OPEN at amount 100, used to exercise claim C1. -/
def wC1sOpen : ContractState :=
  { orders := fun k => if k = 5 then
      { state := OrderState.OPEN, sourceAccount := 11, targetAccount := 12,
        amount := 100, rewardAsset := 13, confirmationId := 0, timestamp := 14,
        nonce := 15, networkId := 16 }
    else OrderInfo.zero,
    authorizedContracts := fun _ _ => false }

/-- A state with no orders, used to exercise claim C1. -/
def wC1sNone : ContractState :=
  { orders := fun _ => OrderInfo.zero, authorizedContracts := fun _ _ => false }

/-- A prover output whose decoded order id is 5. -/
def wC1po : ProverOutput :=
  { chainId := 1, emittingContract := 2, topics := [orderCreatedSig, 5, 7, 8],
    data := [] }

/-- A Confirmation prover output for order 5 with decoded amount 99. -/
def wC1poMismatch : ProverOutput :=
  { chainId := 1, emittingContract := 2, topics := [confirmationSig, 5, 7, 8],
    data := [99, 1, 2, 3] }

/-- Witness for claim C1 at concrete inputs. -/
theorem claim_C1_witness :
    ((∃ e, openOrder wC1sOpen wC1po = Except.error e) ∧ applyOpen wC1sOpen wC1po = wC1sOpen)
    ∧ ((∃ e, orderCompleted wC1sNone wC1po = Except.error e)
        ∧ applyComplete wC1sNone wC1po = wC1sNone)
    ∧ ((∃ e, orderCompleted wC1sOpen wC1poMismatch = Except.error e)
        ∧ applyComplete wC1sOpen wC1poMismatch = wC1sOpen) :=
  ⟨(claim_C1 wC1sOpen wC1po 5 rfl).1 (Or.inl (by decide)),
   (claim_C1 wC1sNone wC1po 5 rfl).2.1 (by decide),
   (claim_C1 wC1sOpen wC1poMismatch 5 rfl).2.2 99 rfl (by decide)⟩

/-- The fields of an order record that claim C9 asserts immutable once the
order is OPEN: everything except state, confirmationId and timestamp. -/
def coreFieldsEq (a b : OrderInfo) : Prop :=
  a.sourceAccount = b.sourceAccount ∧ a.targetAccount = b.targetAccount ∧
  a.amount = b.amount ∧ a.rewardAsset = b.rewardAsset ∧
  a.nonce = b.nonce ∧ a.networkId = b.networkId

theorem coreFieldsEq_refl (a : OrderInfo) : coreFieldsEq a a := by
  simp [coreFieldsEq]

theorem openOrder_ok_characterize {s : ContractState} {po : ProverOutput}
    {s' : ContractState} {ev : OrderOpenedEvent}
    (h : openOrder s po = Except.ok (s', ev)) :
    ∃ oid info, (s.orders oid).state = OrderState.NONEXISTENT ∧
      info.state = OrderState.OPEN ∧
      s'.orders = (fun k => if k = oid then info else s.orders k) ∧
      s'.authorizedContracts = s.authorizedContracts := by
  obtain ⟨c, ec, tp, dt⟩ := po
  rcases tp with _ | ⟨t0, _ | ⟨t1, _ | ⟨t2, tl⟩⟩⟩
  · simp [openOrder] at h
  · simp [openOrder] at h
  · simp [openOrder] at h
  · by_cases hsig : t0 = orderCreatedSig
    · by_cases hst : (s.orders t1).state = OrderState.NONEXISTENT
      · cases hdec : decodeOpenPayload dt with
        | none => simp [openOrder, hsig, hst, hdec] at h
        | some p =>
          simp only [openOrder, hsig, hst, hdec, if_true, eq_self_iff_true,
            Except.ok.injEq, Prod.mk.injEq] at h
          obtain ⟨h1, h2⟩ := h
          subst h1
          exact ⟨t1, _, hst, rfl, rfl, rfl⟩
      · simp [openOrder, hsig, hst] at h
    · simp [openOrder, hsig] at h

theorem orderCompleted_ok_characterize {s : ContractState} {po : ProverOutput}
    {s' : ContractState} {ev : OrderCompletedEvent} {rv : ReclaimReadyEvent}
    (h : orderCompleted s po = Except.ok (s', ev, rv)) :
    ∃ oid cid ts, (s.orders oid).state = OrderState.OPEN ∧
      s'.orders = (fun k => if k = oid then
          { s.orders oid with
              state := OrderState.COMPLETED
              confirmationId := cid
              timestamp := ts }
        else s.orders k) ∧
      s'.authorizedContracts = s.authorizedContracts := by
  obtain ⟨c, ec, tp, dt⟩ := po
  rcases tp with _ | ⟨t0, _ | ⟨t1, _ | ⟨t2, _ | ⟨t3, tl⟩⟩⟩⟩
  · simp [orderCompleted] at h
  · simp [orderCompleted] at h
  · simp [orderCompleted] at h
  · simp [orderCompleted] at h
  · by_cases hsig : t0 = confirmationSig
    · by_cases hst : (s.orders t1).state = OrderState.OPEN
      · cases hdec : decodeCompletePayload dt with
        | none => simp [orderCompleted, hsig, hst, hdec] at h
        | some p =>
          by_cases hamt : (s.orders t1).amount = p.amount
          · simp only [orderCompleted, hsig, hst, hdec, hamt, if_true,
              eq_self_iff_true, Except.ok.injEq, Prod.mk.injEq] at h
            obtain ⟨h1, h2⟩ := h
            subst h1
            refine ⟨t1, p.confirmationId, p.timestamp, hst, ?_, rfl⟩
            funext k
            by_cases hk : k = t1
            · subst hk; simp [hamt]
            · simp [hk]
          · simp [orderCompleted, hsig, hst, hdec, hamt] at h
      · simp [orderCompleted, hsig, hst] at h
    · simp [orderCompleted, hsig] at h

/-- Claim C9: across every committed transaction of the contract, each
order's state moves only along NONEXISTENT to OPEN to COMPLETED, and once
an order is OPEN (or later COMPLETED) its sourceAccount, targetAccount,
amount, rewardAsset, nonce and networkId fields are never modified. -/
theorem claim_C9 (s s' : ContractState) (hstep : ContractStep s s') (oid : Nat) :
    ((s.orders oid).state = OrderState.NONEXISTENT →
       (s'.orders oid).state = OrderState.NONEXISTENT ∨
       (s'.orders oid).state = OrderState.OPEN)
    ∧ ((s.orders oid).state = OrderState.OPEN →
       (s'.orders oid).state = OrderState.OPEN ∨
       (s'.orders oid).state = OrderState.COMPLETED)
    ∧ ((s.orders oid).state = OrderState.COMPLETED →
       (s'.orders oid).state = OrderState.COMPLETED)
    ∧ (((s.orders oid).state = OrderState.OPEN ∨
        (s.orders oid).state = OrderState.COMPLETED) →
       coreFieldsEq (s'.orders oid) (s.orders oid)) := by
  cases hstep with
  | openTx po =>
    cases hres : openOrder s po with
    | error e =>
      rw [applyOpen_of_error hres]
      exact ⟨fun h => Or.inl h, fun h => Or.inl h, fun h => h,
             fun _ => coreFieldsEq_refl _⟩
    | ok r =>
      obtain ⟨s1, ev⟩ := r
      have happ : applyOpen s po = s1 := by simp [applyOpen, hres]
      rw [happ]
      obtain ⟨t1, info, hstN, hinfo, horders, hac⟩ := openOrder_ok_characterize hres
      by_cases hk : oid = t1
      · subst hk
        refine ⟨fun _ => Or.inr ?_, fun h => ?_, fun h => ?_, fun h => ?_⟩
        · simp [horders, hinfo]
        · rw [hstN] at h; cases h
        · rw [hstN] at h; cases h
        · rcases h with h | h <;> (rw [hstN] at h; cases h)
      · have hsame : s1.orders oid = s.orders oid := by simp [horders, hk]
        rw [hsame]
        exact ⟨fun h => Or.inl h, fun h => Or.inl h, fun h => h,
               fun _ => coreFieldsEq_refl _⟩
  | completeTx po =>
    cases hres : orderCompleted s po with
    | error e =>
      rw [applyComplete_of_error hres]
      exact ⟨fun h => Or.inl h, fun h => Or.inl h, fun h => h,
             fun _ => coreFieldsEq_refl _⟩
    | ok r =>
      obtain ⟨s1, ev, rv⟩ := r
      have happ : applyComplete s po = s1 := by simp [applyComplete, hres]
      rw [happ]
      obtain ⟨t1, cid, ts, hstO, horders, hac⟩ := orderCompleted_ok_characterize hres
      by_cases hk : oid = t1
      · subst hk
        refine ⟨fun h => ?_, fun _ => Or.inr ?_, fun h => ?_, fun _ => ?_⟩
        · rw [hstO] at h; cases h
        · simp [horders]
        · rw [hstO] at h; cases h
        · simp [horders, coreFieldsEq]
      · have hsame : s1.orders oid = s.orders oid := by simp [horders, hk]
        rw [hsame]
        exact ⟨fun h => Or.inl h, fun h => Or.inl h, fun h => h,
               fun _ => coreFieldsEq_refl _⟩
  | authorizeTx c a b =>
    exact ⟨fun h => Or.inl h, fun h => Or.inl h, fun h => h,
           fun _ => coreFieldsEq_refl _⟩

/-- An empty contract state used to exercise claim C9. -/
def wC9s : ContractState :=
  { orders := fun _ => OrderInfo.zero, authorizedContracts := fun _ _ => false }

/-- Witness for claim C9: a concrete authorizeSourceContract step. -/
theorem claim_C9_witness :
    ((wC9s.orders 0).state = OrderState.NONEXISTENT →
       ((authorizeSourceContract wC9s 3 4 true).orders 0).state = OrderState.NONEXISTENT ∨
       ((authorizeSourceContract wC9s 3 4 true).orders 0).state = OrderState.OPEN)
    ∧ ((wC9s.orders 0).state = OrderState.OPEN →
       ((authorizeSourceContract wC9s 3 4 true).orders 0).state = OrderState.OPEN ∨
       ((authorizeSourceContract wC9s 3 4 true).orders 0).state = OrderState.COMPLETED)
    ∧ ((wC9s.orders 0).state = OrderState.COMPLETED →
       ((authorizeSourceContract wC9s 3 4 true).orders 0).state = OrderState.COMPLETED)
    ∧ (((wC9s.orders 0).state = OrderState.OPEN ∨
        (wC9s.orders 0).state = OrderState.COMPLETED) →
       coreFieldsEq ((authorizeSourceContract wC9s 3 4 true).orders 0) (wC9s.orders 0)) :=
  claim_C9 wC9s (authorizeSourceContract wC9s 3 4 true)
    (ContractStep.authorizeTx wC9s 3 4 true) 0

/-- Projection of an openOrder outcome onto everything except the
authorizedContracts mapping: error message, orders mapping, emitted event. -/
def openView (r : Except String (ContractState × OrderOpenedEvent)) :
    Except String ((Nat → OrderInfo) × OrderOpenedEvent) :=
  r.map (fun p => (p.1.orders, p.2))

/-- Projection of an orderCompleted outcome onto everything except the
authorizedContracts mapping. -/
def completeView
    (r : Except String (ContractState × OrderCompletedEvent × ReclaimReadyEvent)) :
    Except String ((Nat → OrderInfo) × OrderCompletedEvent × ReclaimReadyEvent) :=
  r.map (fun p => (p.1.orders, p.2))

/-- Claim C10: the outcome of openOrder and orderCompleted (success or
revert, resulting orders mapping, emitted events) does not depend on the
authorizedContracts mapping nor on the chain id and emitting contract
address returned by the prover: both functions behave identically on any
two states differing only in authorizedContracts and on any two prover
outputs differing only in those two fields, so source-contract
authorization is never enforced. -/
theorem claim_C10 (O : Nat → OrderInfo) (A A' : Nat → Nat → Bool)
    (c c' e e' : Nat) (tp dt : List Nat) :
    openView (openOrder ⟨O, A⟩ ⟨c, e, tp, dt⟩)
      = openView (openOrder ⟨O, A'⟩ ⟨c', e', tp, dt⟩)
    ∧ completeView (orderCompleted ⟨O, A⟩ ⟨c, e, tp, dt⟩)
      = completeView (orderCompleted ⟨O, A'⟩ ⟨c', e', tp, dt⟩) := by
  constructor
  · rcases tp with _ | ⟨t0, _ | ⟨t1, _ | ⟨t2, tl⟩⟩⟩
    · rfl
    · rfl
    · rfl
    · by_cases hsig : t0 = orderCreatedSig
      · by_cases hst : (O t1).state = OrderState.NONEXISTENT
        · cases hdec : decodeOpenPayload dt with
          | none => simp [openOrder, openView, hsig, hst, hdec]
          | some p => simp [openOrder, openView, Except.map, hsig, hst, hdec]
        · simp [openOrder, openView, hsig, hst]
      · simp [openOrder, openView, hsig]
  · rcases tp with _ | ⟨t0, _ | ⟨t1, _ | ⟨t2, _ | ⟨t3, tl⟩⟩⟩⟩
    · rfl
    · rfl
    · rfl
    · rfl
    · by_cases hsig : t0 = confirmationSig
      · by_cases hst : (O t1).state = OrderState.OPEN
        · cases hdec : decodeCompletePayload dt with
          | none => simp [orderCompleted, completeView, hsig, hst, hdec]
          | some p =>
            by_cases hamt : (O t1).amount = p.amount
            · simp [orderCompleted, completeView, Except.map, hsig, hst, hdec, hamt]
            · simp [orderCompleted, completeView, hsig, hst, hdec, hamt]
        · simp [orderCompleted, completeView, hsig, hst]
      · simp [orderCompleted, completeView, hsig]

/-!
Model of the off-chain executor (bun-executor-listener/executor.ts) and of
the t3rn hub listener.  Hex strings (transaction hashes, order ids,
addresses, the destination field) are modelled as String, bigint amounts
as Nat.
-/

/-- Chain id constant UNICHAIN_ID from executor.ts. -/
def UNICHAIN_ID : Nat := 1301

/-- Chain id constant BASE_ID from executor.ts. -/
def BASE_ID : Nat := 84532

/-- The bytes4 hex marker for Base destinations that
processOrderCreatedEvent requires the destination field to start with
(the constant named expectedBaseDestinationHexPrefix in executor.ts). -/
def expectedBaseDestinationHex : String := "0x62617374"

/-- ASCII case folding of one character, as JS toLowerCase acts on the
hex-string destinations handled here. -/
def charToLower (c : Char) : Char :=
  if c.isUpper then Char.ofNat (c.toNat + 32) else c

/-- The destination filter of processOrderCreatedEvent:
rawDestinationHex.toLowerCase().startsWith(expectedBaseDestinationHexPrefix),
modelled on the character lists of the strings. -/
def destinationMatchesBase (d : String) : Bool :=
  expectedBaseDestinationHex.data.isPrefixOf (d.data.map charToLower)

/-- Decoded OrderCreated spoke event (type OrderCreatedEvent of
contracts.ts), as extracted by processOrderCreatedEvent. -/
structure OrderCreatedEvent where
  id : String
  destination : String
  asset : Nat
  targetAccount : String
  amount : Nat
  rewardAsset : String
  insurance : Nat
  maxReward : Nat
  nonce : Nat
  sourceAccount : String
  orderTimestamp : Nat
deriving DecidableEq, Repr

/-- Decoded Confirmation spoke event (type ConfirmationEvent of
contracts.ts), as extracted by processConfirmationEvent. -/
structure ConfirmationEvent where
  id : String
  target : String
  amount : Nat
  asset : String
  sender : String
  confirmationId : String
  timestamp : Nat
deriving DecidableEq, Repr

/-- An ethers log as consumed by the processors: its position coordinates
and the result of iface.parseLog under the spoke ABI for the respective
event kind (none models a log parseLog cannot parse). -/
structure EthersLog where
  transactionHash : String
  blockNumber : Nat
  index : Nat
  parsedCreated : Option OrderCreatedEvent
  parsedConfirmation : Option ConfirmationEvent
deriving DecidableEq, Repr

/-- Whether the external relay call was accepted.  callExecutorAPI logs
either way and never throws, so the outcome is invisible to its caller. -/
inductive RelayOutcome where
  | success
  | failure
deriving DecidableEq, Repr

/-- One POST to the Executor API: the coordinates callExecutorAPI puts in
the request payload. -/
structure RelayCall where
  srcChainId : Nat
  blockNumber : Nat
  logIndex : Nat
  destMethod : String
deriving DecidableEq, Repr

/-- Model of callExecutorAPI: performs the HTTP call, whose outcome the
environment chooses, and catches every failure, returning nothing the
caller could branch on; the record is emitted for observation only. -/
def callExecutorAPI (srcChainId blockNumber logIndex : Nat) (destMethod : String)
    (outcome : RelayOutcome) : RelayCall × RelayOutcome :=
  ({ srcChainId := srcChainId, blockNumber := blockNumber,
     logIndex := logIndex, destMethod := destMethod }, outcome)

/-- JS Set.add: no effect when the element is already present. -/
def setAdd (s : List String) (x : String) : List String :=
  if x ∈ s then s else s ++ [x]

/-- JS Set.delete: removes the element if present. -/
def setDelete (s : List String) (x : String) : List String :=
  s.erase x

/-- The module-level mutable state of executor.ts: the processedTxs dedup
set and the pendingOrderIdsFromUnichain correlation set. -/
structure ExecState where
  processedTxs : List String
  pending : List String
deriving DecidableEq, Repr

/-- Function processOrderCreatedEvent of executor.ts, step for step: skip
if the transaction hash was already processed, mark it processed, parse
the log (bail out on failure), drop the event unless its destination hex
starts with the Base marker, add the order id to the pending set, then
call the Executor API for an openOrder relay. -/
def processOrderCreatedEvent (st : ExecState) (log : EthersLog)
    (outcome : RelayOutcome) : ExecState × List (RelayCall × RelayOutcome) :=
  if log.transactionHash ∈ st.processedTxs then (st, [])
  else
    let st1 : ExecState :=
      { st with processedTxs := setAdd st.processedTxs log.transactionHash }
    match log.parsedCreated with
    | none => (st1, [])
    | some ev =>
      if destinationMatchesBase ev.destination then
        let st2 : ExecState := { st1 with pending := setAdd st1.pending ev.id }
        (st2, [callExecutorAPI UNICHAIN_ID log.blockNumber log.index "openOrder" outcome])
      else (st1, [])

/-- Function processConfirmationEvent of executor.ts, step for step: skip
if the transaction hash was already processed, mark it processed, parse
the log, drop the event if its order id is not in the pending set, call
the Executor API for an orderCompleted relay, then delete the id from the
pending set — unconditionally, whatever the relay outcome was. -/
def processConfirmationEvent (st : ExecState) (log : EthersLog)
    (outcome : RelayOutcome) : ExecState × List (RelayCall × RelayOutcome) :=
  if log.transactionHash ∈ st.processedTxs then (st, [])
  else
    let st1 : ExecState :=
      { st with processedTxs := setAdd st.processedTxs log.transactionHash }
    match log.parsedConfirmation with
    | none => (st1, [])
    | some ev =>
      if ev.id ∈ st1.pending then
        ({ st1 with pending := setDelete st1.pending ev.id },
         [callExecutorAPI BASE_ID log.blockNumber log.index "orderCompleted" outcome])
      else (st1, [])

/-- An event processor as passed to pollForEvents. -/
abbrev Processor :=
  ExecState → EthersLog → RelayOutcome → ExecState × List (RelayCall × RelayOutcome)

/-- The sequential for-of loop of pollForEvents delivering a fetched batch
to a processor, accumulating the relay calls made. -/
def deliverAll (proc : Processor) :
    ExecState → List (EthersLog × RelayOutcome) →
    ExecState × List (RelayCall × RelayOutcome)
  | st, [] => (st, [])
  | st, (l, o) :: rest =>
    let r := proc st l o
    let r2 := deliverAll proc r.1 rest
    (r2.1, r.2 ++ r2.2)

/-- One tick of pollForEvents in executor.ts.  The fetched argument stands
for the RPC reads (getBlockNumber and getLogs): Except.error is a thrown
RPC fault, which the catch block answers by returning the old
lastProcessedBlock.  On success the batch is delivered to the processor in
exactly the order the log source returned it (the source performs no
sorting here) and the tick returns currentBlock.  Result: (returned
watermark, final state, relay calls, logs delivered in order). -/
def pollForEvents (currentBlock lastProcessedBlock : Nat)
    (fetched : Except Unit (List (EthersLog × RelayOutcome)))
    (proc : Processor) (st : ExecState) :
    Nat × ExecState × List (RelayCall × RelayOutcome) × List EthersLog :=
  match fetched with
  | Except.error _ => (lastProcessedBlock, st, [], [])
  | Except.ok logs =>
    if currentBlock ≤ lastProcessedBlock then (lastProcessedBlock, st, [], [])
    else
      let r := deliverAll proc st logs
      (currentBlock, r.1, r.2, logs.map Prod.fst)

/-- An EventLog polled by the t3rn hub listener. -/
structure HubEventLog where
  blockNumber : Nat
  index : Nat
  transactionHash : String
  eventName : String
deriving DecidableEq, Repr

/-- The total preorder induced by the comparator passed to allEvents.sort
in pollForHubEvents: ascending blockNumber, ties broken by ascending log
index. -/
def hubEventRel (a b : HubEventLog) : Prop :=
  a.blockNumber < b.blockNumber ∨ (a.blockNumber = b.blockNumber ∧ a.index ≤ b.index)

instance : DecidableRel hubEventRel := fun a b => by
  unfold hubEventRel; exact inferInstance

instance : IsTotal HubEventLog hubEventRel :=
  ⟨by intro a b; unfold hubEventRel; omega⟩

instance : IsTrans HubEventLog hubEventRel :=
  ⟨by intro a b c hab hbc; unfold hubEventRel at hab hbc ⊢; omega⟩

/-- The in-place sort pollForHubEvents performs on the flattened batch
before delivery, modelled as an insertion sort under the comparator. -/
def sortHubEvents (l : List HubEventLog) : List HubEventLog :=
  List.insertionSort hubEventRel l

/-- Constant CATCH_UP_BLOCK_COUNT of the hub listener. -/
def CATCH_UP_BLOCK_COUNT : Nat := 100

/-- Initial watermark of the hub listener: both startHubListener and a
first tick of pollForHubEvents set
lastPolledBlock = Math.max(0, currentBlock - CATCH_UP_BLOCK_COUNT); over
non-negative heights the JS expression agrees with this Nat one. -/
def hubInitialLastPolledBlock (currentBlock : Nat) : Nat :=
  max 0 (currentBlock - CATCH_UP_BLOCK_COUNT)

/-- The closed block range a hub tick scans: nothing when currentBlock has
not advanced past the watermark, else (lastPolledBlock + 1, currentBlock). -/
def hubPollRange (lastPolledBlock currentBlock : Nat) : Option (Nat × Nat) :=
  if currentBlock ≤ lastPolledBlock then none
  else some (lastPolledBlock + 1, currentBlock)

/-- Membership of a block in a scan range. -/
def inPollRange (r : Option (Nat × Nat)) (b : Nat) : Prop :=
  match r with
  | none => False
  | some lh => lh.1 ≤ b ∧ b ≤ lh.2

/-- Initial watermark of each spoke poller in startPolling (executor.ts):
lastUnichainBlock and lastBaseBlock are set to the current block height,
with no lookback. -/
def executorInitialLastBlock (currentBlock : Nat) : Nat := currentBlock


theorem setAdd_mem (s : List String) (x : String) : x ∈ setAdd s x := by
  unfold setAdd
  by_cases h : x ∈ s
  · simp [h]
  · simp [h]

theorem setAdd_nodup {s : List String} {x : String} (h : s.Nodup) :
    (setAdd s x).Nodup := by
  unfold setAdd
  by_cases hx : x ∈ s
  · simpa [hx]
  · simp [hx, List.nodup_append, h]

theorem setAdd_of_mem {s : List String} {x : String} (h : x ∈ s) :
    setAdd s x = s := by
  simp [setAdd, h]

/-- Claim C8: a creation event whose destination field does not match the
configured Base identifier marker is dropped before any further action: it
never adds a pending correlation entry and never triggers an openOrder
relay call. -/
theorem claim_C8 (st : ExecState) (log : EthersLog) (ev : OrderCreatedEvent)
    (o : RelayOutcome) (hparse : log.parsedCreated = some ev)
    (hdest : destinationMatchesBase ev.destination = false) :
    (processOrderCreatedEvent st log o).1.pending = st.pending
    ∧ (processOrderCreatedEvent st log o).2 = [] := by
  by_cases htx : log.transactionHash ∈ st.processedTxs
  · simp [processOrderCreatedEvent, htx]
  · simp [processOrderCreatedEvent, htx, hparse, hdest]

/-- A decoded creation event whose destination hex lacks the Base marker. -/
def wC8Ev : OrderCreatedEvent :=
  { id := "0xo8"
    destination := "0xdead"
    asset := 0
    targetAccount := "0xta"
    amount := 5
    rewardAsset := "0xra"
    insurance := 0
    maxReward := 0
    nonce := 1
    sourceAccount := "0xsa"
    orderTimestamp := 0 }

/-- A creation event log carrying wC8Ev. -/
def wC8Log : EthersLog :=
  { transactionHash := "0xw8"
    blockNumber := 3
    index := 1
    parsedCreated := some wC8Ev
    parsedConfirmation := none }

/-- Witness for claim C8 at a concrete non-Base creation event. -/
theorem claim_C8_witness :
    (processOrderCreatedEvent ⟨[], []⟩ wC8Log RelayOutcome.success).1.pending = []
    ∧ (processOrderCreatedEvent ⟨[], []⟩ wC8Log RelayOutcome.success).2 = [] :=
  claim_C8 ⟨[], []⟩ wC8Log wC8Ev RelayOutcome.success rfl (by decide)

/-- A decoded confirmation event for order id 0xaa with amount 100. -/
def cexC2Ev : ConfirmationEvent :=
  { id := "0xaa"
    target := "0xt"
    amount := 100
    asset := "0xas"
    sender := "0xs"
    confirmationId := "0xc"
    timestamp := 5 }

/-- A confirmation log carrying cexC2Ev. -/
def cexC2Log : EthersLog :=
  { transactionHash := "0xtc2"
    blockNumber := 7
    index := 0
    parsedCreated := none
    parsedConfirmation := some cexC2Ev }

/-- State with order 0xaa pending and nothing processed. -/
def cexC2St : ExecState := { processedTxs := [], pending := ["0xaa"] }

/-- Counterexample to claim C2: in this execution the orderCompleted relay
call fails, yet the order id is removed from the pending set anyway, so no
later resubmission is possible. -/
theorem claim_C2_cex :
    (processConfirmationEvent cexC2St cexC2Log RelayOutcome.failure).1.pending = []
    ∧ (processConfirmationEvent cexC2St cexC2Log RelayOutcome.failure).2
        = [({ srcChainId := BASE_ID, blockNumber := 7, logIndex := 0,
              destMethod := "orderCompleted" }, RelayOutcome.failure)] := by
  decide

/-- Claim C2 as amended: on a parseable confirmation event from a fresh
transaction whose order id is pending, the executor makes exactly one
orderCompleted relay call and then removes the id from the pending set
unconditionally — for every relay outcome, because callExecutorAPI
swallows failures and returns nothing its caller could branch on. -/
theorem claim_C2_amended (st : ExecState) (log : EthersLog) (ev : ConfirmationEvent)
    (o : RelayOutcome) (htx : log.transactionHash ∉ st.processedTxs)
    (hparse : log.parsedConfirmation = some ev) (hpend : ev.id ∈ st.pending) :
    (processConfirmationEvent st log o).1.pending = setDelete st.pending ev.id
    ∧ (processConfirmationEvent st log o).2
        = [({ srcChainId := BASE_ID, blockNumber := log.blockNumber,
              logIndex := log.index, destMethod := "orderCompleted" }, o)] := by
  simp [processConfirmationEvent, htx, hparse, hpend, callExecutorAPI]

/-- A decoded confirmation event for order id 0xbb. -/
def wC2Ev : ConfirmationEvent :=
  { id := "0xbb"
    target := "0xt"
    amount := 1
    asset := "0xa"
    sender := "0xs"
    confirmationId := "0xc"
    timestamp := 1 }

/-- A confirmation log carrying wC2Ev. -/
def wC2Log : EthersLog :=
  { transactionHash := "0xtw2"
    blockNumber := 9
    index := 2
    parsedCreated := none
    parsedConfirmation := some wC2Ev }

/-- State with orders 0xbb and 0xcc pending. -/
def wC2St : ExecState := { processedTxs := ["0xother"], pending := ["0xbb", "0xcc"] }

/-- Witness for the amended claim C2 at a concrete input. -/
theorem claim_C2_amended_witness :
    (processConfirmationEvent wC2St wC2Log RelayOutcome.success).1.pending
        = setDelete wC2St.pending "0xbb"
    ∧ (processConfirmationEvent wC2St wC2Log RelayOutcome.success).2
        = [({ srcChainId := BASE_ID, blockNumber := 9, logIndex := 2,
              destMethod := "orderCompleted" }, RelayOutcome.success)] :=
  claim_C2_amended wC2St wC2Log wC2Ev RelayOutcome.success (by decide) rfl (by decide)

/-- A decoded creation event for order id 0xaa with a Base destination. -/
def cexC3Ev : OrderCreatedEvent :=
  { id := "0xaa"
    destination := "0x62617374000"
    asset := 0
    targetAccount := "0xta"
    amount := 10
    rewardAsset := "0xra"
    insurance := 0
    maxReward := 0
    nonce := 1
    sourceAccount := "0xsa"
    orderTimestamp := 0 }

/-- A first creation event log carrying cexC3Ev. -/
def cexC3Log1 : EthersLog :=
  { transactionHash := "0xt31"
    blockNumber := 1
    index := 0
    parsedCreated := some cexC3Ev
    parsedConfirmation := none }

/-- A second creation event log for the same order id, from a different
transaction. -/
def cexC3Log2 : EthersLog :=
  { cexC3Log1 with
      transactionHash := "0xt32"
      blockNumber := 2 }

/-- Counterexample to claim C3: after the first creation event for order
0xaa the key is pending, yet a second creation event for the same key from
a different transaction is not dropped: it triggers a second openOrder
relay call. -/
theorem claim_C3_cex :
    (processOrderCreatedEvent ⟨[], []⟩ cexC3Log1 RelayOutcome.success).1.pending = ["0xaa"]
    ∧ (processOrderCreatedEvent
        (processOrderCreatedEvent ⟨[], []⟩ cexC3Log1 RelayOutcome.success).1
        cexC3Log2 RelayOutcome.success).2
        = [({ srcChainId := UNICHAIN_ID, blockNumber := 2, logIndex := 0,
              destMethod := "openOrder" }, RelayOutcome.success)] := by
  decide

theorem processConfirmation_pending_nodup (st : ExecState) (log : EthersLog)
    (o : RelayOutcome) (h : st.pending.Nodup) :
    (processConfirmationEvent st log o).1.pending.Nodup := by
  by_cases htx : log.transactionHash ∈ st.processedTxs
  · simpa [processConfirmationEvent, htx]
  · cases hp : log.parsedConfirmation with
    | none => simpa [processConfirmationEvent, htx, hp]
    | some ev =>
      by_cases hpend : ev.id ∈ st.pending
      · simpa [processConfirmationEvent, htx, hp, hpend, setDelete] using h.erase _
      · simpa [processConfirmationEvent, htx, hp, hpend]

theorem processOrderCreated_pending_nodup (st : ExecState) (log : EthersLog)
    (o : RelayOutcome) (h : st.pending.Nodup) :
    (processOrderCreatedEvent st log o).1.pending.Nodup := by
  by_cases htx : log.transactionHash ∈ st.processedTxs
  · simpa [processOrderCreatedEvent, htx]
  · cases hp : log.parsedCreated with
    | none => simpa [processOrderCreatedEvent, htx, hp]
    | some ev =>
      by_cases hd : destinationMatchesBase ev.destination
      · simpa [processOrderCreatedEvent, htx, hp, hd] using setAdd_nodup h
      · simpa [processOrderCreatedEvent, htx, hp, hd]

/-- Claim C3 as amended: the pending set never holds two entries for one
order key (JS Set semantics, preserved by both processors), and a creation
event from an already-processed transaction hash is dropped with no
insertion and no relay call; but a creation event whose order key is
already pending, arriving from a fresh transaction, is not dropped as a
duplicate: it leaves the pending set unchanged yet triggers another
openOrder relay call. -/
theorem claim_C3_amended (st : ExecState) (log : EthersLog) (ev : OrderCreatedEvent)
    (o : RelayOutcome) :
    (st.pending.Nodup → (processOrderCreatedEvent st log o).1.pending.Nodup
        ∧ (processConfirmationEvent st log o).1.pending.Nodup)
    ∧ (log.transactionHash ∈ st.processedTxs →
        processOrderCreatedEvent st log o = (st, []))
    ∧ (log.transactionHash ∉ st.processedTxs → log.parsedCreated = some ev →
        destinationMatchesBase ev.destination = true → ev.id ∈ st.pending →
        (processOrderCreatedEvent st log o).1.pending = st.pending
        ∧ (processOrderCreatedEvent st log o).2
            = [({ srcChainId := UNICHAIN_ID, blockNumber := log.blockNumber,
                  logIndex := log.index, destMethod := "openOrder" }, o)]) := by
  refine ⟨fun h => ⟨processOrderCreated_pending_nodup st log o h,
      processConfirmation_pending_nodup st log o h⟩, fun htx => ?_,
      fun htx hparse hdest hpend => ?_⟩
  · simp [processOrderCreatedEvent, htx]
  · simp [processOrderCreatedEvent, htx, hparse, hdest, callExecutorAPI,
      setAdd_of_mem hpend]

/-- Witness for the amended claim C3 at concrete inputs. -/
theorem claim_C3_amended_witness :
    ((cexC2St.pending.Nodup →
        (processOrderCreatedEvent cexC2St cexC3Log2 RelayOutcome.success).1.pending.Nodup
        ∧ (processConfirmationEvent cexC2St cexC3Log2 RelayOutcome.success).1.pending.Nodup)
    ∧ (cexC3Log2.transactionHash ∈ cexC2St.processedTxs →
        processOrderCreatedEvent cexC2St cexC3Log2 RelayOutcome.success = (cexC2St, []))
    ∧ (cexC3Log2.transactionHash ∉ cexC2St.processedTxs →
        cexC3Log2.parsedCreated = some cexC3Ev →
        destinationMatchesBase cexC3Ev.destination = true →
        cexC3Ev.id ∈ cexC2St.pending →
        (processOrderCreatedEvent cexC2St cexC3Log2 RelayOutcome.success).1.pending
            = cexC2St.pending
        ∧ (processOrderCreatedEvent cexC2St cexC3Log2 RelayOutcome.success).2
            = [({ srcChainId := UNICHAIN_ID, blockNumber := cexC3Log2.blockNumber,
                  logIndex := cexC3Log2.index, destMethod := "openOrder" },
                RelayOutcome.success)])) :=
  claim_C3_amended cexC2St cexC3Log2 cexC3Ev RelayOutcome.success

/-- A decoded confirmation event for order id 0xaa with amount 3. -/
def cexC4Ev : ConfirmationEvent :=
  { id := "0xaa"
    target := "0xt"
    amount := 3
    asset := "0xa"
    sender := "0xs"
    confirmationId := "0xc"
    timestamp := 2 }

/-- A confirmation log carrying cexC4Ev at block 9, log index 1. -/
def cexC4Log : EthersLog :=
  { transactionHash := "0xt4"
    blockNumber := 9
    index := 1
    parsedCreated := none
    parsedConfirmation := some cexC4Ev }

/-- State with order 0xaa pending and nothing processed. -/
def cexC4St : ExecState := { processedTxs := [], pending := ["0xaa"] }

/-- Counterexample to claim C4: in this tick the delivery of the only
event of the batch fails (its relay call fails), yet the tick still
advances the watermark from 5 to the current height 10, so the batch is
not redelivered. -/
theorem claim_C4_cex :
    (pollForEvents 10 5 (Except.ok [(cexC4Log, RelayOutcome.failure)])
        processConfirmationEvent cexC4St).1 = 10
    ∧ (pollForEvents 10 5 (Except.ok [(cexC4Log, RelayOutcome.failure)])
        processConfirmationEvent cexC4St).2.2.1
        = [({ srcChainId := BASE_ID, blockNumber := 9, logIndex := 1,
              destMethod := "orderCompleted" }, RelayOutcome.failure)]
    ∧ (10 : Nat) ≠ 5 := by
  decide

/-- Claim C4 as amended: a tick of pollForEvents leaves the watermark
unchanged exactly when the RPC reads throw or no new block exists; when
the fetch succeeds and the height advanced, the watermark becomes
currentBlock regardless of what happens during delivery — for every
processor and every assignment of relay outcomes — because the processors
and callExecutorAPI swallow their failures. -/
theorem claim_C4_amended (current last : Nat) (st : ExecState) (proc : Processor)
    (logs : List (EthersLog × RelayOutcome)) :
    (pollForEvents current last (Except.error ()) proc st).1 = last
    ∧ (current ≤ last → (pollForEvents current last (Except.ok logs) proc st).1 = last)
    ∧ (last < current → (pollForEvents current last (Except.ok logs) proc st).1 = current) := by
  refine ⟨rfl, fun h => ?_, fun h => ?_⟩
  · simp [pollForEvents, h]
  · simp [pollForEvents, Nat.not_le.mpr h]

/-- Witness for the amended claim C4 at concrete inputs. -/
theorem claim_C4_amended_witness :
    (pollForEvents 4 9 (Except.error ()) processConfirmationEvent ⟨[], []⟩).1 = 9
    ∧ (pollForEvents 4 9 (Except.ok []) processConfirmationEvent ⟨[], []⟩).1 = 9
    ∧ (pollForEvents 9 4 (Except.ok []) processConfirmationEvent ⟨[], []⟩).1 = 9 :=
  ⟨(claim_C4_amended 4 9 ⟨[], []⟩ processConfirmationEvent []).1,
   (claim_C4_amended 4 9 ⟨[], []⟩ processConfirmationEvent []).2.1 (by decide),
   (claim_C4_amended 9 4 ⟨[], []⟩ processConfirmationEvent []).2.2 (by decide)⟩

/-- A log at block 2, log index 0. -/
def cexC5LogA : EthersLog :=
  { transactionHash := "0xt5a"
    blockNumber := 2
    index := 0
    parsedCreated := none
    parsedConfirmation := none }

/-- A log at block 1, log index 0. -/
def cexC5LogB : EthersLog :=
  { transactionHash := "0xt5b"
    blockNumber := 1
    index := 0
    parsedCreated := none
    parsedConfirmation := none }

/-- Non-decreasing (blockNumber, logIndex) delivery order. -/
def deliveredInOrder (l : List EthersLog) : Prop :=
  l.Pairwise (fun a b => a.blockNumber < b.blockNumber ∨
    (a.blockNumber = b.blockNumber ∧ a.index ≤ b.index))

/-- Counterexample to claim C5: when the log source returns a batch out of
order, pollForEvents of executor.ts delivers it exactly in that order,
which is not non-decreasing in (blockNumber, logIndex). -/
theorem claim_C5_cex :
    (pollForEvents 10 5
        (Except.ok [(cexC5LogA, RelayOutcome.success), (cexC5LogB, RelayOutcome.success)])
        processOrderCreatedEvent ⟨[], []⟩).2.2.2 = [cexC5LogA, cexC5LogB]
    ∧ ¬ deliveredInOrder [cexC5LogA, cexC5LogB] := by
  constructor
  · decide
  · intro h
    rcases List.pairwise_cons.mp h with ⟨h1, _⟩
    have := h1 cexC5LogB (by simp)
    simp [cexC5LogA, cexC5LogB] at this

/-- Claim C5 as amended: only the hub listener sorts: pollForHubEvents
sorts its flattened batch into non-decreasing (blockNumber, logIndex)
order (a permutation of the fetched events) before delivering; the spoke
poller pollForEvents of executor.ts delivers logs in exactly the order the
log source returned them, with no sorting. -/
theorem claim_C5_amended (l : List HubEventLog) (current last : Nat)
    (st : ExecState) (proc : Processor) (logs : List (EthersLog × RelayOutcome))
    (h : last < current) :
    (sortHubEvents l).Sorted hubEventRel
    ∧ (sortHubEvents l).Perm l
    ∧ (pollForEvents current last (Except.ok logs) proc st).2.2.2 = logs.map Prod.fst := by
  refine ⟨List.sorted_insertionSort hubEventRel l,
    List.perm_insertionSort hubEventRel l, ?_⟩
  simp [pollForEvents, Nat.not_le.mpr h]

/-- A hub event at block 2. -/
def wC5HubA : HubEventLog :=
  { blockNumber := 2, index := 0, transactionHash := "0xh1", eventName := "OrderOpened" }

/-- A hub event at block 1. -/
def wC5HubB : HubEventLog :=
  { blockNumber := 1, index := 3, transactionHash := "0xh2", eventName := "OrderCompleted" }

/-- Witness for the amended claim C5 at concrete inputs. -/
theorem claim_C5_amended_witness :
    (sortHubEvents [wC5HubA, wC5HubB]).Sorted hubEventRel
    ∧ (sortHubEvents [wC5HubA, wC5HubB]).Perm [wC5HubA, wC5HubB]
    ∧ (pollForEvents 10 5
        (Except.ok [(cexC5LogA, RelayOutcome.success), (cexC5LogB, RelayOutcome.success)])
        processConfirmationEvent ⟨[], []⟩).2.2.2
        = [(cexC5LogA, RelayOutcome.success), (cexC5LogB, RelayOutcome.success)].map Prod.fst :=
  claim_C5_amended [wC5HubA, wC5HubB] 10 5 ⟨[], []⟩ processConfirmationEvent
    [(cexC5LogA, RelayOutcome.success), (cexC5LogB, RelayOutcome.success)] (by decide)

/-- A creation event log inside the 901 to 1000 window. -/
def cexC6Log : EthersLog :=
  { transactionHash := "0xt6"
    blockNumber := 950
    index := 0
    parsedCreated := some cexC3Ev
    parsedConfirmation := none }

/-- Counterexample to claim C6: the spoke pollers of executor.ts
initialize their watermark to the current height 1000, not to
max(0, 1000 - 100) = 900, and their first tick delivers nothing — not the
events of blocks 901 to 1000. -/
theorem claim_C6_cex :
    executorInitialLastBlock 1000 = 1000
    ∧ hubInitialLastPolledBlock 1000 = 900
    ∧ (1000 : Nat) ≠ 900
    ∧ (pollForEvents 1000 (executorInitialLastBlock 1000)
        (Except.ok [(cexC6Log, RelayOutcome.success)])
        processOrderCreatedEvent ⟨[], []⟩).2.2.2 = [] := by
  decide

/-- Claim C6 as amended: the hub listener initializes its watermark to
max(0, currentHeight - 100) and its first tick scans exactly blocks
currentHeight - 99 through currentHeight (901 through 1000 at height
1000, so earlier events are not replayed); the spoke pollers of
executor.ts instead initialize their watermark to the current height and
their first tick scans nothing. -/
theorem claim_C6_amended (h : Nat) (hh : 100 ≤ h) (st : ExecState)
    (proc : Processor) (logs : List (EthersLog × RelayOutcome)) :
    hubInitialLastPolledBlock h = h - 100
    ∧ hubPollRange (hubInitialLastPolledBlock h) h = some (h - 99, h)
    ∧ (∀ b, inPollRange (hubPollRange (hubInitialLastPolledBlock 1000) 1000) b ↔
        901 ≤ b ∧ b ≤ 1000)
    ∧ pollForEvents h (executorInitialLastBlock h) (Except.ok logs) proc st
        = (h, st, [], []) := by
  refine ⟨by simp [hubInitialLastPolledBlock, CATCH_UP_BLOCK_COUNT], ?_, ?_, ?_⟩
  · simp only [hubPollRange, hubInitialLastPolledBlock, CATCH_UP_BLOCK_COUNT]
    rw [if_neg (by omega)]
    simp only [Option.some.injEq, Prod.mk.injEq]
    constructor
    · omega
    · trivial
  · intro b
    simp [inPollRange, hubPollRange, hubInitialLastPolledBlock, CATCH_UP_BLOCK_COUNT]
  · simp [pollForEvents, executorInitialLastBlock]

/-- Witness for the amended claim C6 at height 1000. -/
theorem claim_C6_amended_witness :
    hubInitialLastPolledBlock 1000 = 1000 - 100
    ∧ hubPollRange (hubInitialLastPolledBlock 1000) 1000 = some (1000 - 99, 1000)
    ∧ (∀ b, inPollRange (hubPollRange (hubInitialLastPolledBlock 1000) 1000) b ↔
        901 ≤ b ∧ b ≤ 1000)
    ∧ pollForEvents 1000 (executorInitialLastBlock 1000) (Except.ok [])
        processOrderCreatedEvent ⟨[], []⟩ = (1000, ⟨[], []⟩, [], []) :=
  claim_C6_amended 1000 (by decide) ⟨[], []⟩ processOrderCreatedEvent []

theorem processOrderCreated_skip (st : ExecState) (log : EthersLog)
    (o : RelayOutcome) (h : log.transactionHash ∈ st.processedTxs) :
    processOrderCreatedEvent st log o = (st, []) := by
  simp [processOrderCreatedEvent, h]

theorem processConfirmation_skip (st : ExecState) (log : EthersLog)
    (o : RelayOutcome) (h : log.transactionHash ∈ st.processedTxs) :
    processConfirmationEvent st log o = (st, []) := by
  simp [processConfirmationEvent, h]

theorem processOrderCreated_marks (st : ExecState) (log : EthersLog)
    (o : RelayOutcome) :
    log.transactionHash ∈ (processOrderCreatedEvent st log o).1.processedTxs := by
  by_cases htx : log.transactionHash ∈ st.processedTxs
  · simp [processOrderCreatedEvent, htx]
  · cases hp : log.parsedCreated with
    | none => simpa [processOrderCreatedEvent, htx, hp] using setAdd_mem _ _
    | some ev =>
      by_cases hd : destinationMatchesBase ev.destination
      · simpa [processOrderCreatedEvent, htx, hp, hd] using setAdd_mem _ _
      · simpa [processOrderCreatedEvent, htx, hp, hd] using setAdd_mem _ _

theorem processConfirmation_marks (st : ExecState) (log : EthersLog)
    (o : RelayOutcome) :
    log.transactionHash ∈ (processConfirmationEvent st log o).1.processedTxs := by
  by_cases htx : log.transactionHash ∈ st.processedTxs
  · simp [processConfirmationEvent, htx]
  · cases hp : log.parsedConfirmation with
    | none => simpa [processConfirmationEvent, htx, hp] using setAdd_mem _ _
    | some ev =>
      by_cases hpend : ev.id ∈ st.pending
      · simpa [processConfirmationEvent, htx, hp, hpend] using setAdd_mem _ _
      · simpa [processConfirmationEvent, htx, hp, hpend] using setAdd_mem _ _

theorem processOrderCreated_calls_len (st : ExecState) (log : EthersLog)
    (o : RelayOutcome) : (processOrderCreatedEvent st log o).2.length ≤ 1 := by
  by_cases htx : log.transactionHash ∈ st.processedTxs
  · simp [processOrderCreatedEvent, htx]
  · cases hp : log.parsedCreated with
    | none => simp [processOrderCreatedEvent, htx, hp]
    | some ev =>
      by_cases hd : destinationMatchesBase ev.destination
      · simp [processOrderCreatedEvent, htx, hp, hd]
      · simp [processOrderCreatedEvent, htx, hp, hd]

theorem processConfirmation_calls_len (st : ExecState) (log : EthersLog)
    (o : RelayOutcome) : (processConfirmationEvent st log o).2.length ≤ 1 := by
  by_cases htx : log.transactionHash ∈ st.processedTxs
  · simp [processConfirmationEvent, htx]
  · cases hp : log.parsedConfirmation with
    | none => simp [processConfirmationEvent, htx, hp]
    | some ev =>
      by_cases hpend : ev.id ∈ st.pending
      · simp [processConfirmationEvent, htx, hpend, hp]
      · simp [processConfirmationEvent, htx, hpend, hp]

theorem deliverAll_skip (proc : Processor) (log : EthersLog) (o : RelayOutcome)
    (st : ExecState)
    (hskip : proc st log o = (st, [])) (n : Nat) :
    deliverAll proc st (List.replicate n (log, o)) = (st, []) := by
  induction n with
  | zero => rfl
  | succ m ih => simp [List.replicate, deliverAll, hskip, ih]

/-- Claim C7: replaying one and the same chain event (same transaction
hash, hence same transaction id and log index) through either event
processor any number of times yields at most one relay action in total:
after the first delivery marks the transaction processed, every redelivery
is skipped by the dedup set before any relay call. -/
theorem claim_C7 (st : ExecState) (log : EthersLog) (o : RelayOutcome) (n : Nat) :
    (deliverAll processOrderCreatedEvent st (List.replicate n (log, o))).2.length ≤ 1
    ∧ (deliverAll processConfirmationEvent st (List.replicate n (log, o))).2.length ≤ 1 := by
  constructor
  · cases n with
    | zero => simp [deliverAll]
    | succ m =>
      have hrest := deliverAll_skip processOrderCreatedEvent log o
        (processOrderCreatedEvent st log o).1
        (processOrderCreated_skip _ _ _ (processOrderCreated_marks st log o)) m
      simpa [List.replicate, deliverAll, hrest] using
        processOrderCreated_calls_len st log o
  · cases n with
    | zero => simp [deliverAll]
    | succ m =>
      have hrest := deliverAll_skip processConfirmationEvent log o
        (processConfirmationEvent st log o).1
        (processConfirmation_skip _ _ _ (processConfirmation_marks st log o)) m
      simpa [List.replicate, deliverAll, hrest] using
        processConfirmation_calls_len st log o
